import Mathlib

/-!
# Verification of the task-management entity/query/statistics engine

A shallow embedding, in Lean 4, of the JavaScript task-management system
(models `User` / `EnhancedTask`, repositories `UserRepository` /
`TaskRepository`, controllers `TaskController`, storage write-through).

Conventions of the embedding:
* JS `Date` values are modelled as `Int` milliseconds since the epoch;
  `new Date()` becomes an explicit `now : Int` parameter threaded through
  every call that reads the clock.  ISO-8601 wire strings are an injective
  encoding of the millisecond value, so wire timestamps are also `Int`
  (`Option Int` where the field may be `null`).
* JS exceptions are modelled with `Except String`; a `throw` before any
  assignment leaves the receiver unchanged, which the embedding reflects by
  returning `.error` without producing a new record.
* JS truthiness on the string/number/null values that actually occur in the
  code paths is modelled explicitly (`""`, `0` and `null` are falsy,
  everything else that occurs is truthy; note that `[]` and every object,
  including every `Date`, is truthy in JS).
* The `Map` objects used by the repositories preserve insertion order and
  update in place; they are modelled as association lists with a
  JS-faithful `set`.
-/

namespace TaskMgmt

/-- JS `String.prototype.trim`: strip leading and trailing whitespace
(defined over the character list so that it evaluates in the kernel). -/
def jsTrim (s : String) : String :=
  ⟨((s.data.dropWhile Char.isWhitespace).reverse.dropWhile
      Char.isWhitespace).reverse⟩

/-- JS `String.prototype.toLowerCase` (ASCII-faithful). -/
def jsToLower (s : String) : String :=
  ⟨s.data.map Char.toLower⟩

/-- JS `opt || dflt` on an optional string: `undefined` and `""` are falsy. -/
def jsOrStr (o : Option String) (d : String) : String :=
  match o with
  | none => d
  | some s => if s = "" then d else s

/-- JS `opt ? new Date(opt) : null` on an optional numeric timestamp:
`undefined`, `null` and `0` are falsy. -/
def jsOrDate (o : Option Int) : Option Int :=
  match o with
  | none => none
  | some t => if t = 0 then none else some t

/-- JS `opt ? opt.trim() : ''` on an optional string argument
(`undefined`, `null` and `""` are falsy). -/
def jsOptTrim (o : Option String) : String :=
  match o with
  | some f => if f = "" then "" else jsTrim f
  | none => ""

/-- `Math.ceil(a / b)` for integer `a` and positive integer `b`
(JS computes an exact float quotient and takes the ceiling). -/
def ceilDiv (a b : Int) : Int := -((-a).fdiv b)

/-- The valid category list from `EnhancedTask._validateCategory`. -/
def validCategories : List String :=
  ["work", "personal", "study", "health", "finance", "other"]

/-- The valid priority list from `EnhancedTask._validatePriority`. -/
def validPriorities : List String :=
  ["low", "medium", "high", "urgent"]

/-- The valid status list from `EnhancedTask._validateStatus`. -/
def validStatuses : List String :=
  ["pending", "in-progress", "blocked", "completed", "cancelled"]

/-- `EnhancedTask._validateCategory`: returns the input if valid, throws
otherwise. -/
def validateCategory (c : String) : Except String String :=
  if validCategories.contains c then .ok c
  else .error ("Kategori tidak valid: " ++ c ++ ". Harus salah satu dari: "
    ++ String.intercalate ", " validCategories)

/-- `EnhancedTask._validatePriority`. -/
def validatePriority (p : String) : Except String String :=
  if validPriorities.contains p then .ok p
  else .error ("Prioritas tidak valid: " ++ p ++ ". Harus salah satu dari: "
    ++ String.intercalate ", " validPriorities)

/-- `EnhancedTask._validateStatus`. -/
def validateStatus (s : String) : Except String String :=
  if validStatuses.contains s then .ok s
  else .error ("Status tidak valid: " ++ s ++ ". Harus salah satu dari: "
    ++ String.intercalate ", " validStatuses)

/-- A note appended by `EnhancedTask.addNote`:
`{id: Date.now(), content, createdAt: new Date()}`. -/
structure TaskNote where
  id : Int
  content : String
  createdAt : Int
deriving DecidableEq, Repr

/-- The in-memory state of an `EnhancedTask` (fields `_id` … `_attachments`
of `src/src/models/User.js`, class `EnhancedTask`). -/
structure EnhancedTask where
  id : String
  title : String
  description : String
  ownerId : String
  assigneeId : String
  category : String
  tags : List String
  priority : String
  status : String
  dueDate : Option Int
  createdAt : Int
  updatedAt : Int
  completedAt : Option Int
  estimatedHours : Int
  actualHours : Int
  notes : List TaskNote
  attachments : List String
deriving DecidableEq, Repr

/-- The `options` argument of the `EnhancedTask` constructor; absent
properties are `none`. -/
structure TaskOptions where
  assigneeId : Option String
  category : Option String
  tags : Option (List String)
  priority : Option String
  status : Option String
  dueDate : Option Int
  estimatedHours : Option Int
deriving Repr

/-- `options` object with no properties set. -/
def TaskOptions.empty : TaskOptions :=
  ⟨none, none, none, none, none, none, none⟩

/-- Core of the `EnhancedTask` constructor, with the due-date truthiness
test already resolved to `dueDateResolved` (the constructor receives either
a caller-supplied numeric timestamp, where `0` is falsy, or — via
`fromJSON` — a non-empty ISO string, which is always truthy). -/
def EnhancedTask.constructCore (genId : String) (now : Int)
    (title : String) (description : Option String) (ownerId : String)
    (opts : TaskOptions) (dueDateResolved : Option Int) :
    Except String EnhancedTask :=
  if jsTrim title = "" then .error "Judul task wajib diisi"
  else if ownerId = "" then .error "Owner ID wajib diisi"
  else
    match validateCategory (jsOrStr opts.category "personal") with
    | .error e => .error e
    | .ok category =>
      match validatePriority (jsOrStr opts.priority "medium") with
      | .error e => .error e
      | .ok priority =>
        match validateStatus (jsOrStr opts.status "pending") with
        | .error e => .error e
        | .ok status =>
          .ok { id := genId
                title := jsTrim title
                description := jsOptTrim description
                ownerId := ownerId
                assigneeId := jsOrStr opts.assigneeId ownerId
                category := category
                tags := opts.tags.getD []
                priority := priority
                status := status
                dueDate := dueDateResolved
                createdAt := now
                updatedAt := now
                completedAt := none
                estimatedHours := opts.estimatedHours.getD 0
                actualHours := 0
                notes := []
                attachments := [] }

/-- The `EnhancedTask` constructor called directly with a numeric
`options.dueDate` (`options.dueDate ? new Date(options.dueDate) : null`). -/
def EnhancedTask.construct (genId : String) (now : Int)
    (title : String) (description : Option String) (ownerId : String)
    (opts : TaskOptions) : Except String EnhancedTask :=
  EnhancedTask.constructCore genId now title description ownerId opts
    (jsOrDate opts.dueDate)

/-- `get isCompleted() { return this._status === 'completed'; }` -/
def EnhancedTask.isCompleted (t : EnhancedTask) : Bool :=
  t.status = "completed"

/-- `get isOverdue()`: `if (!this._dueDate || this.isCompleted) return
false; return new Date() > this._dueDate;` (a `Date` object is always
truthy, so only `null` fails the first test). -/
def EnhancedTask.isOverdue (t : EnhancedTask) (now : Int) : Bool :=
  match t.dueDate with
  | none => false
  | some d => if t.isCompleted then false else now > d

/-- `get daysUntilDue()`: `Math.ceil((dueDate - today) / 86400000)` or
`null` without a due date. -/
def EnhancedTask.daysUntilDue (t : EnhancedTask) (now : Int) : Option Int :=
  match t.dueDate with
  | none => none
  | some d => some (ceilDiv (d - now) 86400000)

/-- Ok projection of an `Except` result (used to state concrete
evaluations without an equality instance on `Except`). -/
def exOk? {α : Type} (e : Except String α) : Option α :=
  match e with
  | .ok a => some a
  | .error _ => none

/-- Error projection of an `Except` result. -/
def exErr? {α : Type} (e : Except String α) : Option String :=
  match e with
  | .error m => some m
  | .ok _ => none

/-- `EnhancedTask.updateTitle`: rejects blank titles, trims, touches
`updatedAt`. -/
def EnhancedTask.updateTitle (t : EnhancedTask) (newTitle : String)
    (now : Int) : Except String EnhancedTask :=
  if jsTrim newTitle = "" then .error "Judul task tidak boleh kosong"
  else .ok { t with title := jsTrim newTitle, updatedAt := now }

/-- `EnhancedTask.updateDescription`. -/
def EnhancedTask.updateDescription (t : EnhancedTask)
    (newDescription : Option String) (now : Int) : EnhancedTask :=
  { t with
    description := jsOptTrim newDescription
    updatedAt := now }

/-- `EnhancedTask.updateCategory`: validates, then assigns and touches
`updatedAt` (a validation throw leaves the task unchanged). -/
def EnhancedTask.updateCategory (t : EnhancedTask) (newCategory : String)
    (now : Int) : Except String EnhancedTask :=
  match validateCategory newCategory with
  | .error e => .error e
  | .ok c => .ok { t with category := c, updatedAt := now }

/-- `EnhancedTask.updatePriority`. -/
def EnhancedTask.updatePriority (t : EnhancedTask) (newPriority : String)
    (now : Int) : Except String EnhancedTask :=
  match validatePriority newPriority with
  | .error e => .error e
  | .ok p => .ok { t with priority := p, updatedAt := now }

/-- `EnhancedTask.updateStatus`: the only mutator touching `completedAt`
(stamps `now` on entry into `completed`, clears on any other target). -/
def EnhancedTask.updateStatus (t : EnhancedTask) (newStatus : String)
    (now : Int) : Except String EnhancedTask :=
  match validateStatus newStatus with
  | .error e => .error e
  | .ok v =>
    .ok { t with
          status := v
          completedAt :=
            if newStatus = "completed" ∧ t.status ≠ "completed" then some now
            else if newStatus ≠ "completed" then none
            else t.completedAt
          updatedAt := now }

/-- `EnhancedTask.addTag`: appends when the tag is truthy and not already
present (touching `updatedAt` only then). -/
def EnhancedTask.addTag (t : EnhancedTask) (tag : String) (now : Int) :
    EnhancedTask :=
  if tag ≠ "" ∧ ¬ t.tags.contains tag then
    { t with tags := t.tags ++ [tag], updatedAt := now }
  else t

/-- `EnhancedTask.removeTag`: splices out the first occurrence when
present (touching `updatedAt` only then). -/
def EnhancedTask.removeTag (t : EnhancedTask) (tag : String) (now : Int) :
    EnhancedTask :=
  if t.tags.contains tag then
    { t with tags := t.tags.erase tag, updatedAt := now }
  else t

/-- `EnhancedTask.setDueDate`: `dueDate ? new Date(dueDate) : null`. -/
def EnhancedTask.setDueDate (t : EnhancedTask) (dueDate : Option Int)
    (now : Int) : EnhancedTask :=
  { t with dueDate := jsOrDate dueDate, updatedAt := now }

/-- `EnhancedTask.assignTo`: assigns the given user id without any
validation. -/
def EnhancedTask.assignTo (t : EnhancedTask) (userId : String)
    (now : Int) : EnhancedTask :=
  { t with assigneeId := userId, updatedAt := now }

/-- `EnhancedTask.addTimeSpent`: accumulates only strictly positive
amounts. -/
def EnhancedTask.addTimeSpent (t : EnhancedTask) (hours : Int)
    (now : Int) : EnhancedTask :=
  if hours > 0 then
    { t with actualHours := t.actualHours + hours, updatedAt := now }
  else t

/-- `EnhancedTask.setEstimatedHours`: clamps at `0` from below. -/
def EnhancedTask.setEstimatedHours (t : EnhancedTask) (hours : Int)
    (now : Int) : EnhancedTask :=
  { t with estimatedHours := max 0 hours, updatedAt := now }

/-- `EnhancedTask.addNote`: appends `{id: Date.now(), content: trimmed,
createdAt: now}` when the note is truthy and non-blank. -/
def EnhancedTask.addNote (t : EnhancedTask) (note : String) (now : Int) :
    EnhancedTask :=
  if note ≠ "" ∧ jsTrim note ≠ "" then
    { t with
      notes := t.notes ++ [⟨now, jsTrim note, now⟩]
      updatedAt := now }
  else t

/-- The wire form produced by `EnhancedTask.toJSON` (timestamps are
ISO-8601 strings on the wire, encoded here by their millisecond value). -/
structure TaskJSON where
  id : String
  title : String
  description : String
  ownerId : String
  assigneeId : String
  category : String
  tags : List String
  priority : String
  status : String
  dueDate : Option Int
  createdAt : Int
  updatedAt : Int
  completedAt : Option Int
  estimatedHours : Int
  actualHours : Int
  notes : List TaskNote
  attachments : List String
deriving DecidableEq, Repr

/-- `EnhancedTask.toJSON`. -/
def EnhancedTask.toJSON (t : EnhancedTask) : TaskJSON :=
  { id := t.id
    title := t.title
    description := t.description
    ownerId := t.ownerId
    assigneeId := t.assigneeId
    category := t.category
    tags := t.tags
    priority := t.priority
    status := t.status
    dueDate := t.dueDate
    createdAt := t.createdAt
    updatedAt := t.updatedAt
    completedAt := t.completedAt
    estimatedHours := t.estimatedHours
    actualHours := t.actualHours
    notes := t.notes
    attachments := t.attachments }

/-- `EnhancedTask.fromJSON`: reconstructs through the constructor (wire
`dueDate` is a non-empty ISO string or `null`, so its truthiness test
resolves to the option itself; wire `estimatedHours` is a number, where
`|| 0` is the identity because `0 || 0 === 0`), then overwrites the
bookkeeping fields (`data.actualHours || 0`, `data.notes || []` and
`data.attachments || []` are identities on the values `toJSON` emits,
since an empty array is truthy in JS). -/
def EnhancedTask.fromJSON (data : TaskJSON) : Except String EnhancedTask :=
  match EnhancedTask.constructCore data.id 0 data.title
      (some data.description) data.ownerId
      { assigneeId := some data.assigneeId
        category := some data.category
        tags := some data.tags
        priority := some data.priority
        status := some data.status
        dueDate := data.dueDate
        estimatedHours := some data.estimatedHours }
      data.dueDate with
  | .error e => .error e
  | .ok task =>
    .ok { task with
          id := data.id
          createdAt := data.createdAt
          updatedAt := data.updatedAt
          completedAt := data.completedAt
          actualHours := data.actualHours
          notes := data.notes
          attachments := data.attachments }

/-- The completion invariant of the spec: `completedAt` is non-null
exactly when `status == 'completed'`. -/
def completionInv (t : EnhancedTask) : Prop :=
  t.completedAt ≠ none ↔ t.status = "completed"

instance (t : EnhancedTask) : Decidable (completionInv t) := by
  unfold completionInv
  infer_instance

/-- A sequence of attempted `updateStatus` calls, each with its own clock
value; a call that throws leaves the task unchanged (the throw happens
before any assignment). -/
def applyStatusUpdates (t : EnhancedTask) :
    List (String × Int) → EnhancedTask
  | [] => t
  | (s, now) :: rest =>
    match t.updateStatus s now with
    | .ok t' => applyStatusUpdates t' rest
    | .error _ => applyStatusUpdates t rest

/-- `validateStatus` returns its argument on success. -/
theorem validateStatus_ok {s v : String}
    (h : validateStatus s = .ok v) : v = s := by
  unfold validateStatus at h
  split at h
  · exact (Except.ok.injEq _ _).mp h |>.symm
  · exact absurd h (by simp)

/-- `validateCategory` returns its argument on success. -/
theorem validateCategory_ok {s v : String}
    (h : validateCategory s = .ok v) : v = s := by
  unfold validateCategory at h
  split at h
  · exact (Except.ok.injEq _ _).mp h |>.symm
  · exact absurd h (by simp)

/-- `validatePriority` returns its argument on success. -/
theorem validatePriority_ok {s v : String}
    (h : validatePriority s = .ok v) : v = s := by
  unfold validatePriority at h
  split at h
  · exact (Except.ok.injEq _ _).mp h |>.symm
  · exact absurd h (by simp)

/-- On success, `updateStatus` sets the status to its argument and sets
`completedAt` by the stamp/clear/keep rule of the source. -/
theorem updateStatus_fields (t : EnhancedTask) (s : String) (now : Int)
    (t' : EnhancedTask) (h : t.updateStatus s now = .ok t') :
    t'.status = s ∧
    t'.completedAt =
      (if s = "completed" ∧ t.status ≠ "completed" then some now
       else if s ≠ "completed" then none else t.completedAt) := by
  unfold EnhancedTask.updateStatus at h
  cases hv : validateStatus s with
  | error e => rw [hv] at h; exact absurd h (by simp)
  | ok v =>
    rw [hv] at h
    simp only [Except.ok.injEq] at h
    subst h
    exact ⟨validateStatus_ok hv, rfl⟩

/-- A successful `updateStatus` re-establishes the completion invariant. -/
theorem updateStatus_inv (t : EnhancedTask) (s : String) (now : Int)
    (t' : EnhancedTask) (hinv : completionInv t)
    (h : t.updateStatus s now = .ok t') : completionInv t' := by
  obtain ⟨hs, hc⟩ := updateStatus_fields t s now t' h
  unfold completionInv at *
  by_cases h1 : s = "completed"
  · by_cases h2 : t.status = "completed"
    · simp only [h1, h2, ne_eq, not_true_eq_false, and_false, if_false,
        not_false_eq_true, if_neg (by simp : ¬ ("completed" : String) ≠ "completed")] at hc
      rw [hs, hc, h1]
      simpa [h2] using hinv
    · simp only [h1, h2, ne_eq, not_false_eq_true, and_true, if_true] at hc
      rw [hs, hc, h1]
      simp
  · simp only [h1, false_and, if_false, ne_eq, h1, not_false_eq_true,
      if_true] at hc
    rw [hs, hc]
    simp [h1]

/-- A successfully constructed task has `completedAt = null` and carries
the resolved `options.status`. -/
theorem task_construct_fields (genId : String) (now : Int) (title : String)
    (descr : Option String) (ownerId : String) (opts : TaskOptions)
    (dueR : Option Int) (t : EnhancedTask)
    (h : EnhancedTask.constructCore genId now title descr ownerId opts dueR
      = .ok t) :
    t.completedAt = none ∧ t.status = jsOrStr opts.status "pending" := by
  unfold EnhancedTask.constructCore at h
  split at h
  · exact absurd h (by simp)
  · split at h
    · exact absurd h (by simp)
    · split at h
      · exact absurd h (by simp)
      · split at h
        · exact absurd h (by simp)
        · rename_i heqs
          split at h
          · exact absurd h (by simp)
          · rename_i heq
            simp only [Except.ok.injEq] at h
            subst h
            exact ⟨rfl, validateStatus_ok heq⟩

/-- **C1** (amended).  The completion invariant — `completedAt` non-null
exactly when `status == 'completed'` — is established by construction for
every resolved initial status other than `'completed'` (in particular the
default), is re-established by every successful `updateStatus` (which
stamps `now` on a transition into `'completed'` and clears on a transition
to any other status), and therefore holds across arbitrary sequences of
status mutations from such a start.  (Construction with initial status
`'completed'` violates it: see the counterexample.) -/
theorem task_completion_invariant :
    (∀ (genId : String) (now : Int) (title : String)
        (descr : Option String) (ownerId : String) (opts : TaskOptions)
        (t : EnhancedTask),
        EnhancedTask.construct genId now title descr ownerId opts = .ok t →
        jsOrStr opts.status "pending" ≠ "completed" →
        completionInv t)
    ∧ (∀ (t : EnhancedTask) (s : String) (now : Int) (t' : EnhancedTask),
        t.updateStatus s now = .ok t' →
        (completionInv t → completionInv t')
        ∧ (s = "completed" → t.status ≠ "completed" →
            t'.completedAt = some now)
        ∧ (s ≠ "completed" → t'.completedAt = none))
    ∧ (∀ (t : EnhancedTask) (l : List (String × Int)),
        completionInv t → completionInv (applyStatusUpdates t l)) := by
  refine ⟨?_, ?_, ?_⟩
  · intro genId now title descr ownerId opts t h hs
    obtain ⟨hc, hst⟩ := task_construct_fields genId now title descr ownerId opts
      (jsOrDate opts.dueDate) t h
    unfold completionInv
    rw [hc, hst]
    simp [hs]
  · intro t s now t' h
    obtain ⟨hs, hc⟩ := updateStatus_fields t s now t' h
    refine ⟨fun hinv => updateStatus_inv t s now t' hinv h, ?_, ?_⟩
    · intro h1 h2
      rw [hc]
      simp [h1, h2]
    · intro h1
      rw [hc]
      simp [h1]
  · intro t l
    induction l generalizing t with
    | nil => exact fun h => h
    | cons p rest ih =>
      intro hinv
      unfold applyStatusUpdates
      cases hu : t.updateStatus p.1 p.2 with
      | ok t' => exact ih t' (updateStatus_inv t p.1 p.2 t' hinv hu)
      | error e => exact ih t hinv

/-- **C1** counterexample: a task constructed with valid initial status
`'completed'` (accepted by the constructor, reachable through
`TaskRepository.create` since `taskData` is passed through as `options`)
has `status == 'completed'` but `completedAt == null`, so the claimed
iff fails at construction. -/
theorem task_completion_invariant_counterexample :
    (exOk? (EnhancedTask.construct "task_1" 0 "Laporan" none "user_1"
        { TaskOptions.empty with status := some "completed" })).map
      (fun t => (t.status, t.completedAt, decide (completionInv t)))
      = some ("completed", none, false) := by decide

/-- A concrete well-formed pending task used to instantiate theorems. -/
def sampleTask : EnhancedTask :=
  { id := "task_0"
    title := "Contoh"
    description := ""
    ownerId := "user_1"
    assigneeId := "user_1"
    category := "personal"
    tags := []
    priority := "medium"
    status := "pending"
    dueDate := none
    createdAt := 0
    updatedAt := 0
    completedAt := none
    estimatedHours := 0
    actualHours := 0
    notes := []
    attachments := [] }

/-- Witness for C1: the invariant holds after a concrete transition
sequence `pending → completed → pending → blocked` from `sampleTask`. -/
theorem task_completion_invariant_witness :
    completionInv (applyStatusUpdates sampleTask
      [("completed", 5), ("pending", 6), ("blocked", 7)]) :=
  task_completion_invariant.2.2 sampleTask
    [("completed", 5), ("pending", 6), ("blocked", 7)] (by decide)

/-- **C9** (confirmed).  `isOverdue` boundary behaviour: a task due one
millisecond ago and not completed is overdue; the same task completed is
not; a task with no due date is never overdue, for every status and every
clock value. -/
theorem overdue_boundary (t : EnhancedTask) (now : Int) :
    (t.dueDate = some (now - 1) → t.status ≠ "completed" →
      t.isOverdue now = true)
    ∧ (t.status = "completed" → t.isOverdue now = false)
    ∧ (t.dueDate = none → t.isOverdue now = false) := by
  refine ⟨?_, ?_, ?_⟩
  · intro hd hs
    unfold EnhancedTask.isOverdue
    rw [hd]
    simp only [EnhancedTask.isCompleted]
    rw [if_neg (by simp [hs])]
    simp only [decide_eq_true_eq]
    omega
  · intro hs
    unfold EnhancedTask.isOverdue
    cases t.dueDate with
    | none => rfl
    | some d => simp [EnhancedTask.isCompleted, hs]
  · intro hd
    unfold EnhancedTask.isOverdue
    rw [hd]

/-- Witness for C9 at a concrete task and clock. -/
theorem overdue_boundary_witness :
    EnhancedTask.isOverdue { sampleTask with dueDate := some 99 } 100 = true
    ∧ EnhancedTask.isOverdue
        { sampleTask with dueDate := some 99, status := "completed" } 100
        = false
    ∧ EnhancedTask.isOverdue sampleTask 100 = false :=
  ⟨(overdue_boundary { sampleTask with dueDate := some 99 } 100).1
      (by decide) (by decide),
   (overdue_boundary
      { sampleTask with dueDate := some 99, status := "completed" } 100).2.1
      (by decide),
   (overdue_boundary sampleTask 100).2.2 (by decide)⟩

/-- JS object spread `{...old, ...upd}` on string-keyed objects: keys of
`old` keep their position (overridden values replaced in place), new keys
are appended in order.  Preference values are modelled by their JSON
encoding. -/
def jsObjectSet (m : List (String × String)) (k : String) (v : String) :
    List (String × String) :=
  if m.any (fun p => p.1 = k) then
    m.map (fun p => if p.1 = k then (k, v) else p)
  else m ++ [(k, v)]

/-- Fold of `jsObjectSet` over the update object's own keys. -/
def jsObjectMerge (old upd : List (String × String)) :
    List (String × String) :=
  upd.foldl (fun acc kv => jsObjectSet acc kv.1 kv.2) old

/-- `User._isValidEmail`: the regex `^[^\s@]+@[^\s@]+\.[^\s@]+$`.  A
string matches iff it has no whitespace, exactly one `@` which is not the
first character, and the part after the `@` contains a `.` that is neither
its first nor its last character. -/
def isValidEmail (s : String) : Bool :=
  let cs := s.data
  (cs.all fun c => !c.isWhitespace)
    && (cs.count '@' == 1)
    && (cs.indexOf '@' != 0)
    && (((cs.drop (cs.indexOf '@' + 1)).drop 1).dropLast.contains '.')

/-- The default preference object assigned by the `User` constructor. -/
def defaultPreferences : List (String × String) :=
  [("theme", "light"), ("defaultCategory", "personal"),
   ("emailNotifications", "true")]

/-- The in-memory state of a `User` (fields `_id` … `_preferences` of
`src/src/models/User.js`, class `User`). -/
structure User where
  id : String
  username : String
  email : String
  fullName : String
  role : String
  isActive : Bool
  createdAt : Int
  lastLoginAt : Option Int
  preferences : List (String × String)
deriving DecidableEq, Repr

/-- The `User` constructor: validates the raw username (must be truthy and
non-blank after trim) and the raw email (must be truthy and match the
regex; any surrounding whitespace makes the regex fail), then stores
trimmed lowercase forms. -/
def User.construct (genId : String) (now : Int) (username : String)
    (email : String) (fullName : Option String) : Except String User :=
  if username = "" ∨ jsTrim username = "" then
    .error "Username wajib diisi"
  else if email = "" ∨ ¬ isValidEmail email then
    .error "Email tidak valid"
  else
    .ok { id := genId
          username := jsToLower (jsTrim username)
          email := jsToLower (jsTrim email)
          fullName := jsOptTrim fullName
          role := "user"
          isActive := true
          createdAt := now
          lastLoginAt := none
          preferences := defaultPreferences }

/-- `User.updateProfile(fullName, email)`: validates a truthy email first
(throwing before any assignment), then assigns whichever of the two truthy
arguments are present. -/
def User.updateProfile (u : User) (fullName email : Option String) :
    Except String User :=
  if (match email with
      | some e => e ≠ "" && ! isValidEmail e
      | none => false) then .error "Email tidak valid"
  else
    .ok { u with
          fullName := (match fullName with
            | some f => if f = "" then u.fullName else jsTrim f
            | none => u.fullName)
          email := (match email with
            | some e => if e = "" then u.email else jsToLower (jsTrim e)
            | none => u.email) }

/-- `User.updatePreferences`: merge, not replace. -/
def User.updatePreferences (u : User)
    (newPreferences : List (String × String)) : User :=
  { u with preferences := jsObjectMerge u.preferences newPreferences }

/-- `User.recordLogin`. -/
def User.recordLogin (u : User) (now : Int) : User :=
  { u with lastLoginAt := some now }

/-- `User.deactivate`. -/
def User.deactivate (u : User) : User := { u with isActive := false }

/-- `User.activate`. -/
def User.activate (u : User) : User := { u with isActive := true }

/-- The wire form produced by `User.toJSON`. -/
structure UserJSON where
  id : String
  username : String
  email : String
  fullName : String
  role : String
  isActive : Bool
  createdAt : Int
  lastLoginAt : Option Int
  preferences : List (String × String)
deriving DecidableEq, Repr

/-- `User.toJSON`. -/
def User.toJSON (u : User) : UserJSON :=
  { id := u.id
    username := u.username
    email := u.email
    fullName := u.fullName
    role := u.role
    isActive := u.isActive
    createdAt := u.createdAt
    lastLoginAt := u.lastLoginAt
    preferences := u.preferences }

/-- `User.fromJSON`: reconstructs through the constructor (re-validating
the stored username/email), then overwrites `id`, `role`, `isActive`,
`createdAt`, `lastLoginAt` and `preferences` (an object is always truthy,
so `data.preferences || defaults` keeps the wire value `toJSON` emits). -/
def User.fromJSON (data : UserJSON) : Except String User :=
  match User.construct data.id 0 data.username data.email
      (some data.fullName) with
  | .error e => .error e
  | .ok user =>
    .ok { user with
          id := data.id
          role := data.role
          isActive := data.isActive
          createdAt := data.createdAt
          lastLoginAt := data.lastLoginAt
          preferences := data.preferences }

/-- A list none of whose elements satisfy `p` is unchanged by
`dropWhile p` (only the head is ever inspected). -/
theorem dropWhile_eq_self_of_all {p : Char → Bool} {l : List Char}
    (h : l.all (fun c => !p c) = true) : l.dropWhile p = l := by
  cases l with
  | nil => rfl
  | cons a as =>
    simp only [List.all_cons, Bool.and_eq_true, Bool.not_eq_true'] at h
    simp [List.dropWhile_cons, h.1]

/-- `jsTrim` is the identity on whitespace-free strings. -/
theorem jsTrim_of_no_whitespace {s : String}
    (h : s.data.all (fun c => !c.isWhitespace) = true) : jsTrim s = s := by
  unfold jsTrim
  rw [dropWhile_eq_self_of_all h,
    dropWhile_eq_self_of_all (by simpa using h), List.reverse_reverse]

/-- A valid email contains no whitespace, so `jsTrim` leaves it alone. -/
theorem jsTrim_of_valid_email {s : String} (h : isValidEmail s = true) :
    jsTrim s = s := by
  unfold isValidEmail at h
  simp only [Bool.and_eq_true] at h
  exact jsTrim_of_no_whitespace h.1.1.1

/-- Members of the category enumeration are non-empty strings. -/
theorem validCategories_ne_empty {c : String}
    (h : validCategories.contains c = true) : c ≠ "" := fun he => by
  subst he; exact absurd h (by decide)

/-- Members of the priority enumeration are non-empty strings. -/
theorem validPriorities_ne_empty {p : String}
    (h : validPriorities.contains p = true) : p ≠ "" := fun he => by
  subst he; exact absurd h (by decide)

/-- Members of the status enumeration are non-empty strings. -/
theorem validStatuses_ne_empty {s : String}
    (h : validStatuses.contains s = true) : s ≠ "" := fun he => by
  subst he; exact absurd h (by decide)

/-- `jsOrStr` on a truthy string is that string. -/
theorem jsOrStr_some {s d : String} (h : s ≠ "") :
    jsOrStr (some s) d = s := by
  simp [jsOrStr, h]

/-- The canonical stored form of a task: the form every
constructor-and-mutator path except `assignTo` maintains (trimmed
non-blank title, trimmed description, truthy owner and assignee,
enumerated category/priority/status). -/
def TaskWF (t : EnhancedTask) : Prop :=
  jsTrim t.title = t.title ∧ t.title ≠ "" ∧
  jsTrim t.description = t.description ∧
  t.ownerId ≠ "" ∧ t.assigneeId ≠ "" ∧
  validCategories.contains t.category = true ∧
  validPriorities.contains t.priority = true ∧
  validStatuses.contains t.status = true

instance (t : EnhancedTask) : Decidable (TaskWF t) := by
  unfold TaskWF
  infer_instance

/-- The canonical stored form of a user: trimmed lowercase non-blank
username, regex-valid lowercase email, trimmed full name — as the
constructor and `updateProfile` store them. -/
def UserWF (u : User) : Prop :=
  jsTrim u.username = u.username ∧ jsToLower u.username = u.username ∧
  u.username ≠ "" ∧
  isValidEmail u.email = true ∧ jsToLower u.email = u.email ∧
  jsTrim u.fullName = u.fullName

instance (u : User) : Decidable (UserWF u) := by
  unfold UserWF
  infer_instance

/-- Task half of the round-trip. -/
theorem task_round_trip (t : EnhancedTask) (h : TaskWF t) :
    EnhancedTask.fromJSON t.toJSON = .ok t := by
  obtain ⟨h1, h2, h3, h4, h5, h6, h7, h8⟩ := h
  have hdesc : jsOptTrim (some t.description) = t.description := by
    simp only [jsOptTrim]
    by_cases hd : t.description = ""
    · rw [if_pos hd, hd]
    · rw [if_neg hd, h3]
  unfold EnhancedTask.fromJSON EnhancedTask.toJSON EnhancedTask.constructCore
  simp only [h1, hdesc, jsOrStr_some h5,
    jsOrStr_some (validCategories_ne_empty h6),
    jsOrStr_some (validPriorities_ne_empty h7),
    jsOrStr_some (validStatuses_ne_empty h8)]
  rw [if_neg h2]
  rw [if_neg h4]
  unfold validateCategory validatePriority validateStatus
  rw [if_pos h6, if_pos h7, if_pos h8]
  rfl

/-- User half of the round-trip. -/
theorem user_round_trip (u : User) (h : UserWF u) :
    User.fromJSON u.toJSON = .ok u := by
  obtain ⟨h1, h2, h3, h4, h5, h6⟩ := h
  have hne1 : ¬ (u.username = "" ∨ jsTrim u.username = "") := by
    intro hc
    rcases hc with he | he
    · exact h3 he
    · rw [h1] at he; exact h3 he
  have hne2 : ¬ (u.email = "" ∨ ¬ isValidEmail u.email = true) := by
    intro hc
    rcases hc with he | he
    · rw [he] at h4; exact absurd h4 (by decide)
    · exact he h4
  have hfull : jsOptTrim (some u.fullName) = u.fullName := by
    simp only [jsOptTrim]
    by_cases hf : u.fullName = ""
    · rw [if_pos hf, hf]
    · rw [if_neg hf, h6]
  show (match User.construct u.id 0 u.username u.email (some u.fullName) with
    | Except.error e => (Except.error e : Except String User)
    | Except.ok user =>
      Except.ok { user with
            id := u.id
            role := u.role
            isActive := u.isActive
            createdAt := u.createdAt
            lastLoginAt := u.lastLoginAt
            preferences := u.preferences }) = .ok u
  unfold User.construct
  rw [if_neg hne1, if_neg hne2, h1, jsTrim_of_valid_email h4, h2, h5, hfull]

/-- **C4** (amended).  `fromJSON ∘ toJSON` reproduces every field —
including `tags`, `notes`, `attachments`, `preferences` and every
timestamp to the millisecond — for every Task and every User in canonical
stored form (`TaskWF` / `UserWF`), the form every constructor and mutator
path except `EnhancedTask.assignTo` maintains.  (`assignTo` can store an
empty `assigneeId`, which `fromJSON` silently rewrites to the owner: see
the counterexample.) -/
theorem serialization_round_trip :
    (∀ t : EnhancedTask, TaskWF t →
      EnhancedTask.fromJSON t.toJSON = .ok t)
    ∧ (∀ u : User, UserWF u → User.fromJSON u.toJSON = .ok u) :=
  ⟨task_round_trip, user_round_trip⟩

/-- **C4** counterexample: assigning an empty assignee (reachable through
`TaskRepository.update` with `{assigneeId: ""}`, which the controller's
truthiness test does not validate) yields a task whose round-trip changes
`assigneeId` from `""` to the owner id, so not every field is
reproduced. -/
theorem serialization_round_trip_counterexample :
    (sampleTask.assignTo "" 3).assigneeId = ""
    ∧ (exOk? (EnhancedTask.fromJSON
        (EnhancedTask.toJSON (sampleTask.assignTo "" 3)))).map
        (fun t => t.assigneeId) = some "user_1" := by decide

/-- A concrete well-formed user used to instantiate theorems. -/
def sampleUser : User :=
  { id := "user_1"
    username := "budi"
    email := "budi@example.com"
    fullName := "Budi Santoso"
    role := "user"
    isActive := true
    createdAt := 0
    lastLoginAt := some 10
    preferences := defaultPreferences }

/-- Witness for C4 at a concrete task and user. -/
theorem serialization_round_trip_witness :
    EnhancedTask.fromJSON sampleTask.toJSON = .ok sampleTask
    ∧ User.fromJSON sampleUser.toJSON = .ok sampleUser :=
  ⟨serialization_round_trip.1 sampleTask (by decide),
   serialization_round_trip.2 sampleUser (by decide)⟩

/-- JS `Map.prototype.set`: updates an existing key in place (keeping its
insertion position) or appends a new one (keys are unique by
construction, so replacing the first occurrence is `Map` semantics). -/
def jsMapSet {α : Type} (m : List (String × α)) (k : String) (v : α) :
    List (String × α) :=
  match m with
  | [] => [(k, v)]
  | p :: rest => if p.1 = k then (k, v) :: rest else p :: jsMapSet rest k v

/-- JS `Map.prototype.get` (first binding in insertion order). -/
def jsMapGet {α : Type} (m : List (String × α)) (k : String) : Option α :=
  match m with
  | [] => none
  | p :: rest => if p.1 = k then some p.2 else jsMapGet rest k

/-- JS `Map.prototype.delete`. -/
def jsMapDelete {α : Type} (m : List (String × α)) (k : String) :
    List (String × α) :=
  m.filter (fun p => ¬ p.1 = k)

/-- JS truthiness of the optional `userId` parameter of the statistics
queries (`userId ? this.findByOwner(userId) : this.findAll()`). -/
def jsTruthyStr (o : Option String) : Bool :=
  match o with
  | none => false
  | some s => s ≠ ""

/-- The state of a `TaskRepository`: the in-memory id → task index
(`this.tasks`, a `Map`) and the task array last written to the backing
store under the `tasks` key. -/
structure TaskRepoState where
  tasks : List (String × EnhancedTask)
  stored : List TaskJSON
deriving DecidableEq, Repr

/-- `TaskRepository._saveTasksToStorage`: serialize the whole index. -/
def TaskRepoState.serialize (s : TaskRepoState) : List TaskJSON :=
  s.tasks.map (fun p => p.2.toJSON)

/-- `TaskRepository.findById`. -/
def TaskRepository.findById (s : TaskRepoState) (id : String) :
    Option EnhancedTask :=
  jsMapGet s.tasks id

/-- `TaskRepository.findAll` (`Map` values in insertion order). -/
def TaskRepository.findAll (s : TaskRepoState) : List EnhancedTask :=
  s.tasks.map Prod.snd

/-- `TaskRepository.findByOwner`. -/
def TaskRepository.findByOwner (s : TaskRepoState) (ownerId : String) :
    List EnhancedTask :=
  (TaskRepository.findAll s).filter (fun t => t.ownerId = ownerId)

/-- `userId ? this.findByOwner(userId) : this.findAll()`. -/
def TaskRepository.scoped (s : TaskRepoState) (userId : Option String) :
    List EnhancedTask :=
  if jsTruthyStr userId then
    TaskRepository.findByOwner s (userId.getD "")
  else TaskRepository.findAll s

/-- `TaskRepository.create`: construct (propagating validation throws),
index under the generated id, write through. -/
def TaskRepository.create (s : TaskRepoState) (genId : String) (now : Int)
    (title : String) (description : Option String) (ownerId : String)
    (opts : TaskOptions) : TaskRepoState × Except String EnhancedTask :=
  match EnhancedTask.construct genId now title description ownerId opts with
  | .error e => (s, .error e)
  | .ok t =>
    let tasks' := jsMapSet s.tasks t.id t
    ({ tasks := tasks'
       stored := tasks'.map (fun p => p.2.toJSON) }, .ok t)

/-- `TaskRepository.delete`: hard removal plus write-through; `false`
when the id is absent. -/
def TaskRepository.delete (s : TaskRepoState) (id : String) :
    TaskRepoState × Bool :=
  if (jsMapGet s.tasks id).isSome then
    let tasks' := jsMapDelete s.tasks id
    ({ tasks := tasks', stored := tasks'.map (fun p => p.2.toJSON) }, true)
  else (s, false)

/-- The partial-update object accepted by `TaskRepository.update`; a
`none` field is an absent key (`!== undefined` fails). -/
structure TaskUpdates where
  title : Option String
  description : Option String
  category : Option String
  priority : Option String
  status : Option String
  dueDate : Option (Option Int)
  assigneeId : Option String
  estimatedHours : Option Int
  addTimeSpent : Option Int
  addTag : Option String
  removeTag : Option String
  addNote : Option String
deriving Repr

/-- The update object with no keys present. -/
def TaskUpdates.empty : TaskUpdates :=
  ⟨none, none, none, none, none, none, none, none, none, none, none, none⟩

/-- One dispatch step for a throwing mutator: skipped if the key is
absent or an earlier step already threw; a throw keeps the receiver as
the mutator left it (unchanged, since every mutator validates before
assigning) and aborts the remaining dispatches. -/
def optStepE {β : Type} (o : Option β)
    (f : EnhancedTask → β → Except String EnhancedTask)
    (s : EnhancedTask × Option String) : EnhancedTask × Option String :=
  match s, o with
  | (t, some e), _ => (t, some e)
  | (t, none), none => (t, none)
  | (t, none), some v =>
    match f t v with
    | .ok t' => (t', none)
    | .error e => (t, some e)

/-- One dispatch step for a non-throwing mutator. -/
def optStep {β : Type} (o : Option β) (f : EnhancedTask → β → EnhancedTask)
    (s : EnhancedTask × Option String) : EnhancedTask × Option String :=
  match s, o with
  | (t, some e), _ => (t, some e)
  | (t, none), none => (t, none)
  | (t, none), some v => (f t v, none)

/-- The sequential mutator dispatch of `TaskRepository.update` (the task
object is mutated in place, so mutations applied before a throw remain
visible; the returned flag carries the thrown message, if any). -/
def applyTaskUpdates (t : EnhancedTask) (u : TaskUpdates) (now : Int) :
    EnhancedTask × Option String :=
  optStep u.addNote (fun t v => t.addNote v now)
    (optStep u.removeTag (fun t v => t.removeTag v now)
      (optStep u.addTag (fun t v => t.addTag v now)
        (optStep u.addTimeSpent (fun t v => t.addTimeSpent v now)
          (optStep u.estimatedHours (fun t v => t.setEstimatedHours v now)
            (optStep u.assigneeId (fun t v => t.assignTo v now)
              (optStep u.dueDate (fun t v => t.setDueDate v now)
                (optStepE u.status (fun t v => t.updateStatus v now)
                  (optStepE u.priority (fun t v => t.updatePriority v now)
                    (optStepE u.category (fun t v => t.updateCategory v now)
                      (optStep u.description
                        (fun t v => t.updateDescription (some v) now)
                        (optStepE u.title (fun t v => t.updateTitle v now)
                          (t, none))))))))))))

/-- The caller-visible outcome of `TaskRepository.update`. -/
inductive UpdateResult where
  | notFound
  | updated (t : EnhancedTask)
  | threw (e : String)
deriving DecidableEq, Repr

/-- The thrown message of an `UpdateResult`, if any. -/
def UpdateResult.threwMsg? : UpdateResult → Option String
  | .threw e => some e
  | _ => none

/-- The updated task of an `UpdateResult`, if any. -/
def UpdateResult.updated? : UpdateResult → Option EnhancedTask
  | .updated t => some t
  | _ => none

/-- `TaskRepository.update` (`src/unnamed/part_001` lines 150–203):
returns `null` on a missing id; dispatches each present key to its
mutator in source order; the task object in the index is mutated in
place, so on a throw the partial mutations remain in the index while the
write-through save is skipped and the error is rethrown. -/
def TaskRepository.update (s : TaskRepoState) (id : String)
    (u : TaskUpdates) (now : Int) : TaskRepoState × UpdateResult :=
  match jsMapGet s.tasks id with
  | none => (s, .notFound)
  | some t =>
    match applyTaskUpdates t u now with
    | (t', none) =>
      let tasks' := jsMapSet s.tasks id t'
      ({ tasks := tasks'
         stored := tasks'.map (fun p => p.2.toJSON) }, .updated t')
    | (t', some e) =>
      ({ tasks := jsMapSet s.tasks id t', stored := s.stored }, .threw e)

/-- The aggregate object returned by `TaskRepository.getStats`
(`src/unnamed/part_001` lines 344–376); the three breakdowns are objects
keyed by enumeration values, modelled as association lists in insertion
order. -/
structure TaskStats where
  total : Nat
  byStatus : List (String × Nat)
  byPriority : List (String × Nat)
  byCategory : List (String × Nat)
  overdue : Nat
  dueSoon : Nat
  completed : Nat
deriving DecidableEq, Repr

/-- The due-soon predicate used by `getStats` and `findDueSoon`:
`days !== null && days <= 3 && days >= 0`. -/
def dueSoonPred (t : EnhancedTask) (now : Int) : Bool :=
  match t.daysUntilDue now with
  | none => false
  | some d => d ≤ 3 ∧ 0 ≤ d

/-- `TaskRepository.getStats` (`src/unnamed/part_001`): total, overdue,
due-soon and completed counts plus per-status, per-priority and
per-category counts seeded over the full enumerations. -/
def TaskRepository.getStats (s : TaskRepoState) (userId : Option String)
    (now : Int) : TaskStats :=
  let tasks := TaskRepository.scoped s userId
  { total := tasks.length
    byStatus := validStatuses.map
      (fun st => (st, (tasks.filter (fun t => t.status = st)).length))
    byPriority := validPriorities.map
      (fun p => (p, (tasks.filter (fun t => t.priority = p)).length))
    byCategory := validCategories.map
      (fun c => (c, (tasks.filter (fun t => t.category = c)).length))
    overdue := (tasks.filter (fun t => t.isOverdue now)).length
    dueSoon := (tasks.filter (fun t => dueSoonPred t now)).length
    completed := (tasks.filter (fun t => t.isCompleted)).length }

/-- Modelled from the spec: `EnhancedTask.getAvailableCategories`, whose
definition is not among the provided sources (only its call sites in the
repository and controllers are).  The spec fixes the category enumeration
to `{work, personal, study, health, finance, other}`, the same list the
in-source validator uses. -/
def getAvailableCategories : List String := validCategories

/-- A per-category record of `getCategoryStats`. -/
structure CategoryStat where
  total : Nat
  completed : Nat
  pending : Nat
  overdue : Nat
deriving DecidableEq, Repr

/-- The zero record each category is initialized with. -/
def CategoryStat.zero : CategoryStat := ⟨0, 0, 0, 0⟩

/-- The per-task increment of `getCategoryStats`. -/
def CategoryStat.bump (c : CategoryStat) (t : EnhancedTask) (now : Int) :
    CategoryStat :=
  { total := c.total + 1
    completed := if t.isCompleted then c.completed + 1 else c.completed
    pending := if t.isCompleted then c.pending else c.pending + 1
    overdue := if t.isOverdue now then c.overdue + 1 else c.overdue }

/-- The per-task accumulation step of `getCategoryStats`. -/
def categoryStatsStep (now : Int) (stats : List (String × CategoryStat))
    (t : EnhancedTask) : List (String × CategoryStat) :=
  if stats.any (fun p => p.1 = t.category) then
    stats.map (fun p =>
      if p.1 = t.category then (p.1, p.2.bump t now) else p)
  else stats

/-- `TaskRepository.getCategoryStats`
(`src/src/repositories/TaskRepository.js` lines 74–109): every enumerated
category is zero-initialized, then each task bumps its own category's
record (skipping, per the `if (stats[category])` guard, any category not
in the object — impossible for validated tasks but kept faithfully). -/
def TaskRepository.getCategoryStats (s : TaskRepoState)
    (userId : Option String) (now : Int) : List (String × CategoryStat) :=
  let tasks := TaskRepository.scoped s userId
  let init := getAvailableCategories.map (fun c => (c, CategoryStat.zero))
  tasks.foldl (categoryStatsStep now) init

/-- Overwriting one key leaves every other binding unchanged. -/
theorem jsMapGet_set_ne {α : Type} (m : List (String × α)) (k k' : String)
    (v : α) (h : ¬ k' = k) :
    jsMapGet (jsMapSet m k v) k' = jsMapGet m k' := by
  induction m with
  | nil =>
    unfold jsMapSet jsMapGet
    rw [if_neg (fun hh => h hh.symm)]
    rfl
  | cons p rest ih =>
    unfold jsMapSet
    by_cases hp : p.1 = k
    · rw [if_pos hp]
      unfold jsMapGet
      rw [if_neg (fun hh => h hh.symm), if_neg (fun hh => h (hp ▸ hh).symm)]
    · rw [if_neg hp]
      unfold jsMapGet
      by_cases hp' : p.1 = k'
      · rw [if_pos hp', if_pos hp']
      · rw [if_neg hp', if_neg hp']
        exact ih

/-- A key present in an association list has a binding. -/
theorem lookup_isSome_of_mem_keys {β : Type} (m : List (String × β))
    (s : String) (h : s ∈ m.map Prod.fst) : (m.lookup s).isSome = true := by
  induction m with
  | nil => simp at h
  | cons p rest ih =>
    simp only [List.map_cons, List.mem_cons] at h
    by_cases hs : s = p.1
    · simp [List.lookup, hs]
    · have h2 : s ∈ rest.map Prod.fst := by
        rcases h with h | h
        · exact absurd h hs
        · exact h
      simp only [List.lookup]
      rw [show (s == p.1) = false from by simpa using hs]
      exact ih h2

/-- The seeded association list over an enumeration binds every
enumeration member. -/
theorem lookup_seed_isSome {β : Type} (l : List String) (f : String → β)
    (s : String) (h : s ∈ l) :
    ((l.map (fun x => (x, f x))).lookup s).isSome = true := by
  apply lookup_isSome_of_mem_keys
  simpa [List.map_map, Function.comp] using h

/-- `categoryStatsStep` never changes the key set. -/
theorem categoryStatsStep_keys (now : Int)
    (stats : List (String × CategoryStat)) (t : EnhancedTask) :
    (categoryStatsStep now stats t).map Prod.fst = stats.map Prod.fst := by
  unfold categoryStatsStep
  split
  · rw [List.map_map]
    apply List.map_congr_left
    intro p _
    by_cases hp : p.1 = t.category
    · simp [hp]
    · simp [hp]
  · rfl

/-- Folding `categoryStatsStep` never changes the key set. -/
theorem foldl_categoryStatsStep_keys (now : Int)
    (tasks : List EnhancedTask) :
    ∀ (stats : List (String × CategoryStat)),
      (tasks.foldl (categoryStatsStep now) stats).map Prod.fst
        = stats.map Prod.fst := by
  induction tasks with
  | nil => intro stats; rfl
  | cons t rest ih =>
    intro stats
    rw [List.foldl_cons, ih, categoryStatsStep_keys]

/-- **C5** (confirmed).  For every repository state (in particular the
empty one), every optional owner scope and every clock value, `getStats`
and `getCategoryStats` return — without any exceptional case — an entry
for every enumerated status, priority and category, so a consumer never
meets a missing key. -/
theorem stats_zero_fill (s : TaskRepoState) (userId : Option String)
    (now : Int) :
    (∀ st ∈ validStatuses,
      (((TaskRepository.getStats s userId now).byStatus).lookup st).isSome
        = true)
    ∧ (∀ p ∈ validPriorities,
      (((TaskRepository.getStats s userId now).byPriority).lookup p).isSome
        = true)
    ∧ (∀ c ∈ validCategories,
      (((TaskRepository.getStats s userId now).byCategory).lookup c).isSome
        = true)
    ∧ (∀ c ∈ validCategories,
      ((TaskRepository.getCategoryStats s userId now).lookup c).isSome
        = true) := by
  refine ⟨?_, ?_, ?_, ?_⟩
  · intro st hst
    exact lookup_seed_isSome validStatuses
      (fun x =>
        ((TaskRepository.scoped s userId).filter
          (fun t => t.status = x)).length) st hst
  · intro p hp
    exact lookup_seed_isSome validPriorities
      (fun x =>
        ((TaskRepository.scoped s userId).filter
          (fun t => t.priority = x)).length) p hp
  · intro c hc
    exact lookup_seed_isSome validCategories
      (fun x =>
        ((TaskRepository.scoped s userId).filter
          (fun t => t.category = x)).length) c hc
  · intro c hc
    unfold TaskRepository.getCategoryStats
    apply lookup_isSome_of_mem_keys
    rw [foldl_categoryStatsStep_keys]
    simpa [getAvailableCategories, List.map_map, Function.comp] using hc

/-- The empty repository (zero Tasks, nothing stored). -/
def emptyTaskRepo : TaskRepoState := { tasks := [], stored := [] }

/-- Witness for C5 on the empty repository. -/
theorem stats_zero_fill_witness :
    (((TaskRepository.getStats emptyTaskRepo none 0).byStatus).lookup
      "pending").isSome = true
    ∧ ((TaskRepository.getCategoryStats emptyTaskRepo none 0).lookup
      "work").isSome = true :=
  ⟨(stats_zero_fill emptyTaskRepo none 0).1 "pending" (by decide),
   (stats_zero_fill emptyTaskRepo none 0).2.2.2 "work" (by decide)⟩

/-- **C2** (amended).  When `TaskRepository.update` fails with a
validation error, no persistence write occurs — the backing store is
exactly as before the call — and every index entry other than the
targeted id is unchanged; the targeted task itself, however, is mutated
in place by the mutators dispatched before the failing one, so the
in-memory index can differ from its pre-call state (see the
counterexample). -/
theorem update_failure_no_write (s : TaskRepoState) (id : String)
    (u : TaskUpdates) (now : Int) (e : String)
    (h : (TaskRepository.update s id u now).2 = .threw e) :
    (TaskRepository.update s id u now).1.stored = s.stored
    ∧ ∀ k, ¬ k = id →
        jsMapGet (TaskRepository.update s id u now).1.tasks k
          = jsMapGet s.tasks k := by
  unfold TaskRepository.update at *
  cases hg : jsMapGet s.tasks id with
  | none => exact ⟨rfl, fun k _ => rfl⟩
  | some t =>
    rw [hg] at h
    dsimp only at h ⊢
    cases ha : applyTaskUpdates t u now with
    | mk t' err =>
      cases err with
      | none =>
        rw [ha] at h
        simp at h
      | some e' =>
        exact ⟨rfl, fun k hk => jsMapGet_set_ne s.tasks id k t' hk⟩

/-- Initial repository state for the C2 counterexample: one stored task. -/
def cexUpdateState : TaskRepoState :=
  { tasks := [("task_0", sampleTask)], stored := [sampleTask.toJSON] }

/-- The failing partial update of the C2 counterexample: a valid new
title followed by an invalid category. -/
def cexUpdates : TaskUpdates :=
  { TaskUpdates.empty with title := some "Baru", category := some "rahasia" }

/-- **C2** counterexample: the dispatched `updateTitle` has already
mutated the in-memory task when `updateCategory` throws, so after the
failed call the index holds the new title while the backing store still
holds the old one — the in-memory index is not "exactly as it was". -/
theorem update_atomicity_counterexample :
    ((TaskRepository.update cexUpdateState "task_0" cexUpdates 9).2.threwMsg?).isSome
      = true
    ∧ (jsMapGet (TaskRepository.update cexUpdateState "task_0" cexUpdates
        9).1.tasks "task_0").map (fun t => t.title) = some "Baru"
    ∧ sampleTask.title = "Contoh"
    ∧ (TaskRepository.update cexUpdateState "task_0" cexUpdates 9).1.stored
      = cexUpdateState.stored := by decide

/-- Witness for C2: the concrete failing update of the counterexample
leaves the backing store untouched. -/
theorem update_failure_no_write_witness :
    (TaskRepository.update cexUpdateState "task_0" cexUpdates 9).1.stored
      = cexUpdateState.stored :=
  (update_failure_no_write cexUpdateState "task_0" cexUpdates 9
    ("Kategori tidak valid: rahasia. Harus salah satu dari: "
      ++ String.intercalate ", " validCategories) (by decide)).1

/-- The state of a `UserRepository`: the in-memory id → user index and
the user array last written to the backing store under the `users` key. -/
structure UserRepoState where
  users : List (String × User)
  stored : List UserJSON
deriving DecidableEq, Repr

/-- `UserRepository.findById`. -/
def UserRepository.findById (s : UserRepoState) (id : String) :
    Option User :=
  jsMapGet s.users id

/-- `UserRepository.findByUsername`: compares the lowercased (but NOT
trimmed) argument against the stored usernames, in insertion order. -/
def UserRepository.findByUsername (s : UserRepoState) (username : String) :
    Option User :=
  (s.users.map Prod.snd).find? (fun u => u.username = jsToLower username)

/-- `UserRepository.findByEmail`: same shape as `findByUsername`. -/
def UserRepository.findByEmail (s : UserRepoState) (email : String) :
    Option User :=
  (s.users.map Prod.snd).find? (fun u => u.email = jsToLower email)

/-- `UserRepository.create`: duplicate pre-checks (producing the
repository's own error messages), then model construction, index insert
and write-through. -/
def UserRepository.create (s : UserRepoState) (genId : String) (now : Int)
    (username email : String) (fullName : Option String) :
    UserRepoState × Except String User :=
  if (UserRepository.findByUsername s username).isSome = true then
    (s, .error ("Username \x27" ++ username ++ "\x27 sudah digunakan"))
  else if (UserRepository.findByEmail s email).isSome = true then
    (s, .error ("Email \x27" ++ email ++ "\x27 sudah digunakan"))
  else
    match User.construct genId now username email fullName with
    | .error e => (s, .error e)
    | .ok u =>
      let users' := jsMapSet s.users u.id u
      ({ users := users'
         stored := users'.map (fun p => p.2.toJSON) }, .ok u)

/-- The partial-update object accepted by `UserRepository.update`. -/
structure UserUpdates where
  fullName : Option String
  email : Option String
  preferences : Option (List (String × String))
  isActive : Option Bool
deriving Repr

/-- `UserRepository.update`: `null` on a missing id; `updateProfile` when
either profile key is present (its throw aborts the call before any index
or store change); preference merge; activation toggle; write-through. -/
def UserRepository.update (s : UserRepoState) (id : String)
    (u : UserUpdates) : UserRepoState × Except String (Option User) :=
  match jsMapGet s.users id with
  | none => (s, .ok none)
  | some user =>
    match (if u.fullName.isSome ∨ u.email.isSome then
        user.updateProfile u.fullName u.email
      else .ok user) with
    | .error e => (s, .error e)
    | .ok user1 =>
      let user2 := match u.preferences with
        | some p => user1.updatePreferences p
        | none => user1
      let user3 := match u.isActive with
        | some b => if b then user2.activate else user2.deactivate
        | none => user2
      let users' := jsMapSet s.users id user3
      ({ users := users'
         stored := users'.map (fun p => p.2.toJSON) }, .ok (some user3))

/-- `UserRepository.delete` (soft delete: deactivate). -/
def UserRepository.delete (s : UserRepoState) (id : String) :
    UserRepoState × Bool :=
  match jsMapGet s.users id with
  | none => (s, false)
  | some user =>
    let users' := jsMapSet s.users id user.deactivate
    ({ users := users', stored := users'.map (fun p => p.2.toJSON) }, true)

/-- `UserRepository.hardDelete`. -/
def UserRepository.hardDelete (s : UserRepoState) (id : String) :
    UserRepoState × Bool :=
  if (jsMapGet s.users id).isSome then
    let users' := jsMapDelete s.users id
    ({ users := users', stored := users'.map (fun p => p.2.toJSON) }, true)
  else (s, false)

/-- `UserRepository.recordLogin`. -/
def UserRepository.recordLogin (s : UserRepoState) (id : String)
    (now : Int) : UserRepoState × Option User :=
  match jsMapGet s.users id with
  | none => (s, none)
  | some user =>
    let u' := user.recordLogin now
    let users' := jsMapSet s.users id u'
    ({ users := users', stored := users'.map (fun p => p.2.toJSON) },
      some u')

/-- No two indexed users share a stored username, and none share a
stored email. -/
def UniqueUsers (s : UserRepoState) : Prop :=
  s.users.Pairwise
    (fun a b => a.2.username ≠ b.2.username ∧ a.2.email ≠ b.2.email)

instance (s : UserRepoState) : Decidable (UniqueUsers s) := by
  unfold UniqueUsers
  infer_instance

/-- Stored fields of a successfully constructed user. -/
theorem user_construct_fields {genId : String} {now : Int} {un em : String}
    {fn : Option String} {u : User}
    (h : User.construct genId now un em fn = .ok u) :
    u.id = genId ∧ u.username = jsToLower (jsTrim un)
    ∧ u.email = jsToLower (jsTrim em) ∧ isValidEmail em = true := by
  unfold User.construct at h
  split at h
  · exact absurd h (by simp)
  · split at h
    · exact absurd h (by simp)
    · rename_i h1 h2
      simp only [Except.ok.injEq] at h
      subst h
      refine ⟨rfl, rfl, rfl, ?_⟩
      by_contra hv
      exact h2 (Or.inr (by simpa using hv))

/-- Setting a fresh key appends the binding. -/
theorem jsMapSet_fresh {α : Type} (m : List (String × α)) (k : String)
    (v : α) (h : m.any (fun p => p.1 = k) = false) :
    jsMapSet m k v = m ++ [(k, v)] := by
  induction m with
  | nil => rfl
  | cons p rest ih =>
    simp only [List.any_cons, Bool.or_eq_false_iff, decide_eq_false_iff_not]
      at h
    unfold jsMapSet
    rw [if_neg h.1, ih h.2]
    rfl

/-- A failed `findByUsername` means no stored user carries the lowercased
probe as username. -/
theorem findByUsername_none {s : UserRepoState} {un : String}
    (h : (UserRepository.findByUsername s un).isSome = false) :
    ∀ p ∈ s.users, ¬ p.2.username = jsToLower un := by
  intro p hp
  unfold UserRepository.findByUsername at h
  rw [Option.not_isSome, Option.isNone_iff_eq_none,
    List.find?_eq_none] at h
  have := h p.2 (List.mem_map_of_mem Prod.snd hp)
  simpa using this

/-- A failed `findByEmail` means no stored user carries the lowercased
probe as email. -/
theorem findByEmail_none {s : UserRepoState} {em : String}
    (h : (UserRepository.findByEmail s em).isSome = false) :
    ∀ p ∈ s.users, ¬ p.2.email = jsToLower em := by
  intro p hp
  unfold UserRepository.findByEmail at h
  rw [Option.not_isSome, Option.isNone_iff_eq_none,
    List.find?_eq_none] at h
  have := h p.2 (List.mem_map_of_mem Prod.snd hp)
  simpa using this

/-- **C3** (amended).  The `UserRepository` duplicate checks live in
`create` only: creating over an existing lowercased username or email
fails with the repository-produced duplicate message and leaves the
whole state (index and store) unchanged, and a successful create of a
whitespace-free username into a unique index under a fresh id keeps the
index duplicate-free.  The global invariant claimed does NOT hold over
all reachable states: the pre-check compares the untrimmed lowercased
input against trimmed stored values, so a whitespace-padded duplicate
slips through (see the counterexample), and `update` → `updateProfile`
changes an email with no duplicate check at all. -/
theorem user_uniqueness :
    (∀ (s : UserRepoState) (genId : String) (now : Int) (un em : String)
        (fn : Option String),
      (UserRepository.findByUsername s un).isSome = true →
      UserRepository.create s genId now un em fn
        = (s, .error ("Username \x27" ++ un ++ "\x27 sudah digunakan")))
    ∧ (∀ (s : UserRepoState) (genId : String) (now : Int) (un em : String)
        (fn : Option String),
      (UserRepository.findByUsername s un).isSome = false →
      (UserRepository.findByEmail s em).isSome = true →
      UserRepository.create s genId now un em fn
        = (s, .error ("Email \x27" ++ em ++ "\x27 sudah digunakan")))
    ∧ (∀ (s : UserRepoState) (genId : String) (now : Int) (un em : String)
        (fn : Option String) (s' : UserRepoState) (u : User),
      UniqueUsers s →
      (s.users.any (fun p => p.1 = genId)) = false →
      jsTrim un = un →
      UserRepository.create s genId now un em fn = (s', .ok u) →
      UniqueUsers s') := by
  refine ⟨?_, ?_, ?_⟩
  · intro s genId now un em fn h
    unfold UserRepository.create
    rw [if_pos h]
  · intro s genId now un em fn h1 h2
    unfold UserRepository.create
    rw [if_neg (by simp [h1]), if_pos h2]
  · intro s genId now un em fn s' u huniq hfresh htrim h
    unfold UserRepository.create at h
    by_cases h1 : (UserRepository.findByUsername s un).isSome = true
    · rw [if_pos h1] at h
      exact absurd (congrArg Prod.snd h) (by simp)
    · rw [if_neg h1] at h
      by_cases h2 : (UserRepository.findByEmail s em).isSome = true
      · rw [if_pos h2] at h
        exact absurd (congrArg Prod.snd h) (by simp)
      · rw [if_neg h2] at h
        cases hc : User.construct genId now un em fn with
        | error e =>
          rw [hc] at h
          exact absurd (congrArg Prod.snd h) (by simp)
        | ok u0 =>
          rw [hc] at h
          obtain ⟨hid, hun, hem, hvalid⟩ := user_construct_fields hc
          simp only [Prod.mk.injEq] at h
          obtain ⟨hs', -⟩ := h
          subst hs'
          unfold UniqueUsers
          show (jsMapSet s.users u0.id u0).Pairwise _
          rw [hid, jsMapSet_fresh s.users genId u0 hfresh,
            List.pairwise_append]
          refine ⟨huniq, List.pairwise_singleton _ _, ?_⟩
          intro a ha b hb
          have hb' : b = (genId, u0) := by simpa using hb
          subst hb'
          constructor
          · rw [hun, htrim]
            exact fun hcon =>
              findByUsername_none (by simpa using h1) a ha hcon
          · rw [hem, jsTrim_of_valid_email hvalid]
            exact fun hcon =>
              findByEmail_none (by simpa using h2) a ha hcon

/-- State after creating the first user `bob`. -/
def cexUserS1 : UserRepoState :=
  (UserRepository.create ⟨[], []⟩ "user_a" 0 "bob" "a@x.com" none).1

/-- State after also creating `\x20bob` (leading space). -/
def cexUserS2 : UserRepoState :=
  (UserRepository.create cexUserS1 "user_b" 1 " bob" "b@x.com" none).1

/-- **C3** counterexample: the duplicate pre-check lowercases but does
not trim its probe, while the constructor stores the trimmed lowercase
form — so creating `bob` and then `\x20bob` both succeed and leave two
stored users with the identical username `bob`, refuting the claimed
repository-wide uniqueness invariant. -/
theorem user_uniqueness_counterexample :
    (exOk?
      (UserRepository.create cexUserS1 "user_b" 1 " bob" "b@x.com"
        none).2).isSome = true
    ∧ cexUserS2.users.map (fun p => p.2.username) = ["bob", "bob"]
    ∧ decide (UniqueUsers cexUserS2) = false := by decide

/-- Witness for C3: creating `BOB` over the stored `bob` fails with the
repository duplicate message and returns the state unchanged. -/
theorem user_uniqueness_witness :
    UserRepository.create cexUserS1 "user_c" 2 "BOB" "c@x.com" none
      = (cexUserS1,
        .error ("Username \x27" ++ "BOB" ++ "\x27 sudah digunakan")) :=
  user_uniqueness.1 cexUserS1 "user_c" 2 "BOB" "c@x.com" none (by decide)

/-- The `priorityOrder` object of the comparator
(`{low: 1, medium: 2, high: 3, urgent: 4}`); tasks always carry validated
priorities, so the fallback value is never compared. -/
def priorityRank (p : String) : Int :=
  if p = "low" then 1
  else if p = "medium" then 2
  else if p = "high" then 3
  else if p = "urgent" then 4
  else 0

/-- `new Date("9999-12-31")` in milliseconds: the far-future sentinel the
comparator substitutes for a missing due date. -/
def dueSentinel : Int := 253402214400000

/-- A comparator operand: the JS values compared are either strings
(title) or numbers (priority rank, timestamps). -/
inductive SortKey where
  | str (s : String)
  | num (n : Int)
deriving DecidableEq, Repr

/-- `valueA > valueB ? 1 : valueA < valueB ? -1 : 0` on same-kind
operands (a fixed sort key always produces operands of one kind). -/
def jsCompare : SortKey → SortKey → Int
  | .num a, .num b => if a < b then -1 else if b < a then 1 else 0
  | .str a, .str b => if a < b then -1 else if b < a then 1 else 0
  | _, _ => 0

/-- The numeric comparator operand for the non-title sort keys
(`default:` falls back to `createdAt`). -/
def taskNumValue (sortBy : String) (t : EnhancedTask) : Int :=
  if sortBy = "priority" then priorityRank t.priority
  else if sortBy = "dueDate" then t.dueDate.getD dueSentinel
  else if sortBy = "updatedAt" then t.updatedAt
  else t.createdAt

/-- The comparator operand of `TaskRepository.sort`
(`src/unnamed/part_001` lines 303–337): lowercased title, priority rank,
due date with far-future fallback (`a.dueDate || new Date("9999-12-31")`;
a `Date` object is always truthy, so only `null` falls back), or a
timestamp. -/
def taskSortValue (sortBy : String) (t : EnhancedTask) : SortKey :=
  if sortBy = "title" then .str (jsToLower t.title)
  else .num (taskNumValue sortBy t)

/-- The full comparator: ascending compares `(a, b)`, the `else` branch
(descending and any other `order` string) compares `(b, a)`. -/
def taskCmp (sortBy order : String) (a b : EnhancedTask) : Int :=
  if order = "asc" then
    jsCompare (taskSortValue sortBy a) (taskSortValue sortBy b)
  else
    jsCompare (taskSortValue sortBy b) (taskSortValue sortBy a)

/-- `collection.sort(comparator)` on the contents: ECMAScript sort with a
consistent comparator produces the unique stable order — each element
precedes another exactly when the comparator requires it, ties keeping
input order — which is what a stable merge sort under
`le a b := cmp a b ≤ 0` computes. -/
def jsSortList (sortBy order : String) (l : List EnhancedTask) :
    List EnhancedTask :=
  l.mergeSort (fun a b => taskCmp sortBy order a b ≤ 0)

/-- Array references: `TaskRepository.sort` receives an array object and
sorts it in place, so the embedding carries an explicit store from array
ids to contents. -/
def ArrayHeap := Nat → List EnhancedTask

/-- Overwrite one array's contents. -/
def heapUpdate (h : ArrayHeap) (r : Nat) (l : List EnhancedTask) :
    ArrayHeap :=
  fun q => if q = r then l else h q

/-- `TaskRepository.sort(tasks, sortBy, order)`:
`return tasks.sort(cmp)` — `Array.prototype.sort` reorders the receiver
in place and returns that same array, so the store entry of the argument
reference is replaced by its sorted contents and the very same reference
is returned. -/
def TaskRepository.sort (h : ArrayHeap) (r : Nat) (sortBy order : String) :
    ArrayHeap × Nat :=
  (heapUpdate h r (jsSortList sortBy order (h r)), r)

/-- `jsCompare` on numbers is `≤` up to sign. -/
theorem jsCompare_num_le {a b : Int} :
    jsCompare (.num a) (.num b) ≤ 0 ↔ a ≤ b := by
  unfold jsCompare
  dsimp only
  by_cases h1 : a < b
  · rw [if_pos h1]
    exact iff_of_true (by decide) (le_of_lt h1)
  · rw [if_neg h1]
    by_cases h2 : b < a
    · rw [if_pos h2]
      exact iff_of_false (by decide) (not_le.mpr h2)
    · rw [if_neg h2]
      exact iff_of_true (by decide) (le_of_not_lt h2)

/-- `jsCompare` on strings is lexicographic `≤` up to sign. -/
theorem jsCompare_str_le {a b : String} :
    jsCompare (.str a) (.str b) ≤ 0 ↔ a ≤ b := by
  unfold jsCompare
  dsimp only
  by_cases h1 : a < b
  · rw [if_pos h1]
    exact iff_of_true (by decide) (le_of_lt h1)
  · rw [if_neg h1]
    by_cases h2 : b < a
    · rw [if_pos h2]
      exact iff_of_false (by decide) (not_le.mpr h2)
    · rw [if_neg h2]
      exact iff_of_true (by decide) (le_of_not_lt h2)

/-- The comparator result is non-positive exactly when the relevant keys
are `≤`-related (in argument order for `asc`, flipped otherwise). -/
theorem taskCmp_le_iff (sortBy order : String) (a b : EnhancedTask) :
    (taskCmp sortBy order a b ≤ 0) ↔
      (if sortBy = "title" then
        (if order = "asc" then jsToLower a.title ≤ jsToLower b.title
         else jsToLower b.title ≤ jsToLower a.title)
       else
        (if order = "asc" then
          taskNumValue sortBy a ≤ taskNumValue sortBy b
         else taskNumValue sortBy b ≤ taskNumValue sortBy a)) := by
  unfold taskCmp taskSortValue
  by_cases ht : sortBy = "title" <;> by_cases ho : order = "asc" <;>
    simp [ht, ho, jsCompare_str_le, jsCompare_num_le]

/-- The comparator preorder is transitive. -/
theorem taskLe_trans (sortBy order : String) (a b c : EnhancedTask)
    (h1 : taskCmp sortBy order a b ≤ 0)
    (h2 : taskCmp sortBy order b c ≤ 0) :
    taskCmp sortBy order a c ≤ 0 := by
  rw [taskCmp_le_iff] at h1 h2 ⊢
  by_cases ht : sortBy = "title"
  · by_cases ho : order = "asc"
    · rw [if_pos ht, if_pos ho] at h1 h2 ⊢
      exact le_trans h1 h2
    · rw [if_pos ht, if_neg ho] at h1 h2 ⊢
      exact le_trans h2 h1
  · by_cases ho : order = "asc"
    · rw [if_neg ht, if_pos ho] at h1 h2 ⊢
      exact le_trans h1 h2
    · rw [if_neg ht, if_neg ho] at h1 h2 ⊢
      exact le_trans h2 h1

/-- The comparator preorder is total. -/
theorem taskLe_total (sortBy order : String) (a b : EnhancedTask) :
    (taskCmp sortBy order a b ≤ 0) ∨ (taskCmp sortBy order b a ≤ 0) := by
  rw [taskCmp_le_iff, taskCmp_le_iff]
  by_cases ht : sortBy = "title"
  · by_cases ho : order = "asc"
    · rw [if_pos ht, if_pos ho, if_pos ht, if_pos ho]
      exact le_total _ _
    · rw [if_pos ht, if_neg ho, if_pos ht, if_neg ho]
      exact le_total _ _
  · by_cases ho : order = "asc"
    · rw [if_neg ht, if_pos ho, if_neg ht, if_pos ho]
      exact le_total _ _
    · rw [if_neg ht, if_neg ho, if_neg ht, if_neg ho]
      exact le_total _ _

/-- Bool-level transitivity of the comparator preorder, in the form
`mergeSort` wants. -/
theorem taskLeB_trans (sortBy order : String) (a b c : EnhancedTask)
    (h1 : (fun x y => decide (taskCmp sortBy order x y ≤ 0)) a b)
    (h2 : (fun x y => decide (taskCmp sortBy order x y ≤ 0)) b c) :
    (fun x y => decide (taskCmp sortBy order x y ≤ 0)) a c :=
  decide_eq_true (taskLe_trans sortBy order a b c
    (of_decide_eq_true h1) (of_decide_eq_true h2))

/-- Bool-level totality of the comparator preorder. -/
theorem taskLeB_total (sortBy order : String) (a b : EnhancedTask) :
    ((fun x y => decide (taskCmp sortBy order x y ≤ 0)) a b
      || (fun x y => decide (taskCmp sortBy order x y ≤ 0)) b a) = true := by
  rcases taskLe_total sortBy order a b with h | h
  · simp [h]
  · simp [h]

/-- **C7** (confirmed).  `TaskRepository.sort` is a stable sort under its
comparator: the output is a permutation of the input; the `priority` key
orders by the enumerated rank `low < medium < high < urgent`; the
`dueDate` key compares a missing due date as the far-future sentinel
`new Date("9999-12-31")`, so an undated task compares strictly after
every dated one (hence comes last in ascending order); and any two tasks
whose keys compare equal keep their original relative order. -/
theorem sort_contract :
    (∀ (sortBy order : String) (l : List EnhancedTask),
        (jsSortList sortBy order l).Perm l)
    ∧ (priorityRank "low" < priorityRank "medium"
        ∧ priorityRank "medium" < priorityRank "high"
        ∧ priorityRank "high" < priorityRank "urgent")
    ∧ (∀ l : List EnhancedTask, (jsSortList "priority" "asc" l).Pairwise
        (fun a b => priorityRank a.priority ≤ priorityRank b.priority))
    ∧ (∀ l : List EnhancedTask, (jsSortList "dueDate" "asc" l).Pairwise
        (fun a b =>
          a.dueDate.getD dueSentinel ≤ b.dueDate.getD dueSentinel))
    ∧ (∀ (a b : EnhancedTask) (d : Int), a.dueDate = none →
        b.dueDate = some d → d < dueSentinel →
        0 < taskCmp "dueDate" "asc" a b)
    ∧ (∀ (sortBy order : String) (a b : EnhancedTask)
        (l : List EnhancedTask), taskCmp sortBy order a b = 0 →
        List.Sublist [a, b] l →
        List.Sublist [a, b] (jsSortList sortBy order l)) := by
  refine ⟨?_, by decide, ?_, ?_, ?_, ?_⟩
  · intro sortBy order l
    exact List.mergeSort_perm l _
  · intro l
    apply List.Pairwise.imp ?_
      (List.sorted_mergeSort (taskLeB_trans "priority" "asc")
        (taskLeB_total "priority" "asc") l)
    intro a b hab
    have h := of_decide_eq_true hab
    rw [taskCmp_le_iff] at h
    rw [if_neg (by decide), if_pos rfl] at h
    unfold taskNumValue at h
    rw [if_pos rfl, if_pos rfl] at h
    exact h
  · intro l
    apply List.Pairwise.imp ?_
      (List.sorted_mergeSort (taskLeB_trans "dueDate" "asc")
        (taskLeB_total "dueDate" "asc") l)
    intro a b hab
    have h := of_decide_eq_true hab
    rw [taskCmp_le_iff] at h
    rw [if_neg (by decide), if_pos rfl] at h
    unfold taskNumValue at h
    rw [if_neg (by decide), if_pos rfl, if_neg (by decide),
      if_pos rfl] at h
    exact h
  · intro a b d ha hb hd
    unfold taskCmp taskSortValue taskNumValue
    rw [if_pos (show ("asc" : String) = "asc" from rfl),
      if_neg (show ¬ ("dueDate" : String) = "title" from by decide),
      if_neg (show ¬ ("dueDate" : String) = "title" from by decide),
      if_neg (show ¬ ("dueDate" : String) = "priority" from by decide),
      if_neg (show ¬ ("dueDate" : String) = "priority" from by decide),
      if_pos (show ("dueDate" : String) = "dueDate" from rfl),
      if_pos (show ("dueDate" : String) = "dueDate" from rfl),
      ha, hb]
    simp only [Option.getD_none, Option.getD_some]
    unfold jsCompare
    dsimp only
    rw [if_neg (lt_asymm hd), if_pos hd]
    decide
  · intro sortBy order a b l hab hsub
    exact List.pair_sublist_mergeSort (taskLeB_trans sortBy order)
      (taskLeB_total sortBy order) (decide_eq_true (by omega)) hsub

/-- **C10** (confirmed).  `TaskRepository.sort` reorders the array the
caller passed in place — the reference it returns is the argument
reference itself, whose contents in the store are now the sorted list —
rather than building an independent copy; every other array is
untouched. -/
theorem sort_in_place (h : ArrayHeap) (r : Nat) (sortBy order : String) :
    (TaskRepository.sort h r sortBy order).2 = r
    ∧ (TaskRepository.sort h r sortBy order).1 r
        = jsSortList sortBy order (h r)
    ∧ ∀ q, q ≠ r → (TaskRepository.sort h r sortBy order).1 q = h q := by
  unfold TaskRepository.sort heapUpdate
  refine ⟨rfl, by simp, ?_⟩
  intro q hq
  simp [hq]

/-- A second concrete task sharing `sampleTask`'s priority. -/
def sampleTask2 : EnhancedTask :=
  { sampleTask with id := "task_2", title := "Contoh Dua" }

/-- Witness for C7: stability on a concrete tie, and a concrete undated
task comparing after a dated one. -/
theorem sort_contract_witness :
    List.Sublist [sampleTask, sampleTask2]
      (jsSortList "priority" "asc" [sampleTask, sampleTask2])
    ∧ 0 < taskCmp "dueDate" "asc" sampleTask
        { sampleTask2 with dueDate := some 50 } :=
  ⟨sort_contract.2.2.2.2.2 "priority" "asc" sampleTask sampleTask2
      [sampleTask, sampleTask2] (by decide) (List.Sublist.refl _),
   sort_contract.2.2.2.2.1 sampleTask
      { sampleTask2 with dueDate := some 50 } 50 rfl rfl (by decide)⟩

/-- A one-array store for the C10 witness. -/
def sampleHeap : ArrayHeap := fun _ => [sampleTask2, sampleTask]

/-- Witness for C10 at a concrete store: the untouched-array clause at a
different reference. -/
theorem sort_in_place_witness :
    (TaskRepository.sort sampleHeap 0 "priority" "asc").1 1 = sampleHeap 1 :=
  (sort_in_place sampleHeap 0 "priority" "asc").2.2 1 (by decide)

/-- The uniform result envelope of the orchestrators:
`{success: true, data}` or `{success: false, error}` (messages and
counts elided — callers branch on `success` only). -/
inductive Envelope (α : Type) where
  | success (data : α)
  | failure (error : String)
deriving DecidableEq, Repr

/-- The `success` flag of an envelope. -/
def Envelope.isSuccess {α : Type} : Envelope α → Bool
  | .success _ => true
  | .failure _ => false

/-- The `error` field of an envelope, if any. -/
def Envelope.error? {α : Type} : Envelope α → Option String
  | .failure e => some e
  | .success _ => none

/-- The state of a `TaskController`: both repositories plus the bound
current actor (`this.currentUser`, a live `User` reference). -/
structure CtrlState where
  taskRepo : TaskRepoState
  userRepo : UserRepoState
  currentUser : Option User
deriving Repr

/-- `TaskController.setCurrentUser`: assigns the looked-up user (possibly
`null`) and then throws — with no surrounding try/catch — when the id
resolved to no user. -/
def TaskController.setCurrentUser (st : CtrlState) (userId : String) :
    CtrlState × Except String Unit :=
  let cu := UserRepository.findById st.userRepo userId
  match cu with
  | none => ({ st with currentUser := none }, .error "User tidak ditemukan")
  | some u => ({ st with currentUser := some u }, .ok ())

/-- `TaskController.getTask` (`src/unnamed/part_003` lines 86–101):
requires a bound actor; the task must exist and the actor must be its
owner or its assignee. -/
def TaskController.getTask (st : CtrlState) (taskId : String) :
    Envelope EnhancedTask :=
  match st.currentUser with
  | none => .failure "User harus login terlebih dahulu"
  | some cu =>
    match TaskRepository.findById st.taskRepo taskId with
    | none => .failure "Task tidak ditemukan"
    | some task =>
      if ¬ task.ownerId = cu.id ∧ ¬ task.assigneeId = cu.id then
        .failure "Anda tidak memiliki akses ke task ini"
      else .success task

/-- The truthy-and-different test guarding the assignee lookup in
`updateTask` (`updates.assigneeId && updates.assigneeId !==
this.currentUser.id`). -/
def assigneeNeedsCheck (u : TaskUpdates) (cuId : String) : Bool :=
  match u.assigneeId with
  | some a => a ≠ "" && a ≠ cuId
  | none => false

/-- `TaskController.updateTask` (`src/unnamed/part_003` lines 106–127):
requires a bound actor, an existing task and actor == owner; validates a
truthy different assignee; then delegates to the repository inside the
try — a repository throw is caught and folded into the failure
envelope (a `null` repository result would surface as
`{success: true, data: null}`, hence the `Option` payload). -/
def TaskController.updateTask (st : CtrlState) (taskId : String)
    (u : TaskUpdates) (now : Int) :
    CtrlState × Envelope (Option EnhancedTask) :=
  match st.currentUser with
  | none => (st, .failure "User harus login terlebih dahulu")
  | some cu =>
    match TaskRepository.findById st.taskRepo taskId with
    | none => (st, .failure "Task tidak ditemukan")
    | some task =>
      if ¬ task.ownerId = cu.id then
        (st, .failure "Hanya owner yang bisa mengubah task")
      else if assigneeNeedsCheck u cu.id
          ∧ (UserRepository.findById st.userRepo
              (u.assigneeId.getD "")).isNone then
        (st, .failure "User yang di-assign tidak ditemukan")
      else
        match TaskRepository.update st.taskRepo taskId u now with
        | (repo', .updated t) =>
          ({ st with taskRepo := repo' }, .success (some t))
        | (repo', .notFound) =>
          ({ st with taskRepo := repo' }, .success none)
        | (repo', .threw e) =>
          ({ st with taskRepo := repo' }, .failure e)

/-- `TaskController.deleteTask` (`src/unnamed/part_003` lines 132–145):
requires a bound actor, an existing task and actor == owner. -/
def TaskController.deleteTask (st : CtrlState) (taskId : String) :
    CtrlState × Envelope Unit :=
  match st.currentUser with
  | none => (st, .failure "User harus login terlebih dahulu")
  | some cu =>
    match TaskRepository.findById st.taskRepo taskId with
    | none => (st, .failure "Task tidak ditemukan")
    | some task =>
      if ¬ task.ownerId = cu.id then
        (st, .failure "Hanya owner yang bisa menghapus task")
      else
        match TaskRepository.delete st.taskRepo taskId with
        | (repo', true) => ({ st with taskRepo := repo' }, .success ())
        | (repo', false) =>
          ({ st with taskRepo := repo' }, .failure "Gagal menghapus task")

/-- `TaskController.toggleTaskStatus`
(`src/src/controllers/TaskController.js` lines 218–238): looks the task
up first, then reads `this.currentUser.id` (a `null` actor raises a
TypeError that the catch folds into the envelope), allows the OWNER OR
THE ASSIGNEE, flips between `completed` and `pending` only, and delegates
to the repository inside the try. -/
def TaskController.toggleTaskStatus (st : CtrlState) (taskId : String)
    (now : Int) : CtrlState × Envelope (Option EnhancedTask) :=
  match TaskRepository.findById st.taskRepo taskId with
  | none => (st, .failure "Task tidak ditemukan")
  | some task =>
    match st.currentUser with
    | none =>
      (st, .failure "Cannot read properties of null (reading \x27id\x27)")
    | some cu =>
      if ¬ task.ownerId = cu.id ∧ ¬ task.assigneeId = cu.id then
        (st, .failure "Anda tidak memiliki akses ke task ini")
      else
        let newStatus := if task.isCompleted then "pending" else "completed"
        match TaskRepository.update st.taskRepo taskId
            { TaskUpdates.empty with status := some newStatus } now with
        | (repo', .updated t) =>
          ({ st with taskRepo := repo' }, .success (some t))
        | (repo', .notFound) =>
          ({ st with taskRepo := repo' }, .success none)
        | (repo', .threw e) =>
          ({ st with taskRepo := repo' }, .failure e)

/-- An enumerated status always updates successfully. -/
theorem updateStatus_valid_ok (t : EnhancedTask) (s : String) (now : Int)
    (h : validStatuses.contains s = true) :
    ∃ t', t.updateStatus s now = .ok t' := by
  unfold EnhancedTask.updateStatus validateStatus
  rw [if_pos h]
  exact ⟨_, rfl⟩

/-- A status-only update object dispatches exactly `updateStatus`. -/
theorem applyTaskUpdates_status_only_ok (t t' : EnhancedTask) (s : String)
    (now : Int) (h : t.updateStatus s now = .ok t') :
    applyTaskUpdates t { TaskUpdates.empty with status := some s } now
      = (t', none) := by
  simp only [applyTaskUpdates, TaskUpdates.empty, optStep, optStepE, h]

/-- **C6** (amended).  With a bound actor: `getTask` fails for an actor
who is neither owner nor assignee; `updateTask` and `deleteTask` fail
(leaving the state untouched) for any actor other than the owner;
`toggleTaskStatus`, however, accepts the ASSIGNEE as well — an
assignee-but-not-owner actor toggles the status with `success: true`
(see the counterexample), so the owner-only rule does not cover this
status mutation. -/
theorem task_permissions :
    (∀ (st : CtrlState) (taskId : String) (cu : User)
        (task : EnhancedTask),
      st.currentUser = some cu →
      TaskRepository.findById st.taskRepo taskId = some task →
      ¬ task.ownerId = cu.id → ¬ task.assigneeId = cu.id →
      TaskController.getTask st taskId
        = .failure "Anda tidak memiliki akses ke task ini")
    ∧ (∀ (st : CtrlState) (taskId : String) (u : TaskUpdates) (now : Int)
        (cu : User) (task : EnhancedTask),
      st.currentUser = some cu →
      TaskRepository.findById st.taskRepo taskId = some task →
      ¬ task.ownerId = cu.id →
      TaskController.updateTask st taskId u now
        = (st, .failure "Hanya owner yang bisa mengubah task"))
    ∧ (∀ (st : CtrlState) (taskId : String) (cu : User)
        (task : EnhancedTask),
      st.currentUser = some cu →
      TaskRepository.findById st.taskRepo taskId = some task →
      ¬ task.ownerId = cu.id →
      TaskController.deleteTask st taskId
        = (st, .failure "Hanya owner yang bisa menghapus task"))
    ∧ (∀ (st : CtrlState) (taskId : String) (now : Int) (cu : User)
        (task : EnhancedTask),
      st.currentUser = some cu →
      TaskRepository.findById st.taskRepo taskId = some task →
      task.assigneeId = cu.id →
      ((TaskController.toggleTaskStatus st taskId now).2).isSuccess
        = true) := by
  refine ⟨?_, ?_, ?_, ?_⟩
  · intro st taskId cu task hcu hfind hown hassn
    unfold TaskController.getTask
    rw [hcu]
    dsimp only
    rw [hfind]
    dsimp only
    rw [if_pos ⟨hown, hassn⟩]
  · intro st taskId u now cu task hcu hfind hown
    unfold TaskController.updateTask
    rw [hcu]
    dsimp only
    rw [hfind]
    dsimp only
    rw [if_pos hown]
  · intro st taskId cu task hcu hfind hown
    unfold TaskController.deleteTask
    rw [hcu]
    dsimp only
    rw [hfind]
    dsimp only
    rw [if_pos hown]
  · intro st taskId now cu task hcu hfind hassn
    unfold TaskController.toggleTaskStatus
    rw [hfind]
    dsimp only
    rw [hcu]
    dsimp only
    rw [if_neg (fun hcon => hcon.2 hassn)]
    have hvalid : validStatuses.contains
        (if task.isCompleted then "pending" else "completed") = true := by
      unfold EnhancedTask.isCompleted
      by_cases hc : task.status = "completed"
      · rw [if_pos (by simp [hc])]
        decide
      · rw [if_neg (by simp [hc])]
        decide
    obtain ⟨t', ht'⟩ := updateStatus_valid_ok task _ now hvalid
    unfold TaskRepository.update
    unfold TaskRepository.findById at hfind
    rw [hfind]
    dsimp only
    rw [applyTaskUpdates_status_only_ok task t' _ now ht']
    rfl

/-- The owner of the permission scenario. -/
def ownerUser : User := { sampleUser with id := "u1", username := "owner" }

/-- The assignee (not owner) of the permission scenario. -/
def assigneeUser : User :=
  { sampleUser with id := "u2", username := "asg", email := "asg@x.com" }

/-- An unrelated third user. -/
def outsiderUser : User :=
  { sampleUser with id := "u3", username := "out", email := "out@x.com" }

/-- A task owned by `u1` and assigned to `u2`. -/
def cexCtrlTask : EnhancedTask :=
  { sampleTask with id := "task_0", ownerId := "u1", assigneeId := "u2" }

/-- Controller state with the assignee bound as current actor. -/
def cexCtrlState : CtrlState :=
  { taskRepo :=
      { tasks := [("task_0", cexCtrlTask)], stored := [cexCtrlTask.toJSON] }
    userRepo :=
      { users := [("u1", ownerUser), ("u2", assigneeUser)]
        stored := [ownerUser.toJSON, assigneeUser.toJSON] }
    currentUser := some assigneeUser }

/-- **C6** counterexample: the bound actor `u2` is the assignee but not
the owner of `task_0`, yet `toggleTaskStatus` both reports success and
actually mutates the stored status to `completed` — a status mutation by
a non-owner. -/
theorem task_permissions_counterexample :
    cexCtrlTask.ownerId = "u1" ∧ cexCtrlTask.assigneeId = "u2"
    ∧ assigneeUser.id = "u2"
    ∧ ((TaskController.toggleTaskStatus cexCtrlState "task_0" 5).2).isSuccess
        = true
    ∧ (jsMapGet (TaskController.toggleTaskStatus cexCtrlState "task_0"
        5).1.taskRepo.tasks "task_0").map (fun t => t.status)
        = some "completed" := by decide

/-- Witness for C6: the outsider cannot read, and the assignee cannot
`updateTask`. -/
theorem task_permissions_witness :
    TaskController.getTask
        { cexCtrlState with currentUser := some outsiderUser } "task_0"
      = .failure "Anda tidak memiliki akses ke task ini"
    ∧ TaskController.updateTask cexCtrlState "task_0" TaskUpdates.empty 7
      = (cexCtrlState, .failure "Hanya owner yang bisa mengubah task") :=
  ⟨task_permissions.1
      { cexCtrlState with currentUser := some outsiderUser } "task_0"
      outsiderUser cexCtrlTask rfl (by decide) (by decide) (by decide),
   task_permissions.2.1 cexCtrlState "task_0" TaskUpdates.empty 7
      assigneeUser cexCtrlTask rfl (by decide) (by decide)⟩

/-- **C8** (amended).  Every modelled orchestrator method except
`setCurrentUser` catches model/repository exceptions and folds them into
the `{success: false, error}` envelope — in particular a repository
throw inside `updateTask` surfaces as that failure envelope; but
`setCurrentUser` performs no catch: it sets the bound actor (to `null`
first) and throws `User tidak ditemukan` past the orchestrator boundary
whenever the id resolves to no user. -/
theorem orchestrator_error_envelope :
    (∀ (st : CtrlState) (taskId : String) (u : TaskUpdates) (now : Int)
        (cu : User) (task : EnhancedTask) (repo' : TaskRepoState)
        (e : String),
      st.currentUser = some cu →
      TaskRepository.findById st.taskRepo taskId = some task →
      task.ownerId = cu.id →
      assigneeNeedsCheck u cu.id = false →
      TaskRepository.update st.taskRepo taskId u now = (repo', .threw e) →
      TaskController.updateTask st taskId u now
        = ({ st with taskRepo := repo' }, .failure e))
    ∧ (∀ (st : CtrlState) (uid : String),
      UserRepository.findById st.userRepo uid = none →
      TaskController.setCurrentUser st uid
        = ({ st with currentUser := none },
          .error "User tidak ditemukan"))
    ∧ (∀ (st : CtrlState) (uid : String) (u : User),
      UserRepository.findById st.userRepo uid = some u →
      TaskController.setCurrentUser st uid
        = ({ st with currentUser := some u }, .ok ())) := by
  refine ⟨?_, ?_, ?_⟩
  · intro st taskId u now cu task repo' e hcu hfind hown hchk hupd
    unfold TaskController.updateTask
    rw [hcu]
    dsimp only
    rw [hfind]
    dsimp only
    rw [if_neg (fun hcon => hcon hown)]
    rw [if_neg (fun hcon => Bool.false_ne_true (hchk ▸ hcon.1))]
    rw [hupd]
  · intro st uid h
    unfold TaskController.setCurrentUser
    rw [h]
  · intro st uid u h
    unfold TaskController.setCurrentUser
    rw [h]

/-- A controller with no users at all. -/
def emptyCtrl : CtrlState :=
  { taskRepo := emptyTaskRepo, userRepo := ⟨[], []⟩, currentUser := none }

/-- **C8** counterexample: `setCurrentUser` on an unknown id raises
`User tidak ditemukan` out of the orchestrator instead of returning a
`{success: false}` envelope. -/
theorem orchestrator_error_envelope_counterexample :
    exErr? (TaskController.setCurrentUser emptyCtrl "ghost").2
      = some "User tidak ditemukan" := by decide

/-- Witness for C8: the concrete thrown lookup. -/
theorem orchestrator_error_envelope_witness :
    TaskController.setCurrentUser emptyCtrl "ghost"
      = ({ emptyCtrl with currentUser := none },
        .error "User tidak ditemukan") :=
  orchestrator_error_envelope.2.1 emptyCtrl "ghost" (by decide)

end TaskMgmt
